import Mathlib

/-! hachiko-api: the HTTP entry point of `main.go`

`main.go` is a single function:

```go
func main() {
	r := gin.Default()
	r.GET("/ping", func(c *gin.Context) {
		c.JSON(200, gin.H{"message": "pong"})
	})
	r.Run(":8080") // Listen and serve on localhost:8080
}
```

Everything `main` does is a call into the gin web framework, so the embedding
has two layers.

* The program: `main_func1` (the anonymous handler, named as the Go compiler
  names it), `router` (the value `r` after the `r.GET` call) and `main`.
  These are translated line by line from `main.go`.
* The library calls `main` makes: `Default`, `GET`, `Context.JSON`, `Run`,
  and `ServeHTTP`, which the HTTP server calls for every request. They are
  modelled after the functions of the same names in gin (`gin.go`,
  `routergroup.go`, `tree.go`, `context.go`, `response_writer.go`,
  `render/json.go`, `utils.go`), restricted to the paths this program
  exercises. Every restriction is stated at the definition it applies to.

Go strings are modelled as `String`. Lengths are counted in characters
instead of bytes; the only place where a length matters is the comparison of
a request path with a route path, where both countings agree (see
`node.getValue`).
-/

namespace Hachiko

/-! ## Requests and the response writer -/

/-- The two fields of `url.URL` that the router and the handlers can see: the
decoded path and the raw query string. -/
structure URL where
  Path : String
  RawQuery : String
  deriving DecidableEq, Repr

/-- An `http.Request` as handed to `Engine.ServeHTTP`. -/
structure Request where
  Method : String
  URL : URL
  Header : List (String × String)
  Body : String
  deriving DecidableEq, Repr

/-- The `responseWriter` of gin (`response_writer.go`): the status code, the
number of body bytes written (`noWritten = -1` before the header is sent), and
the header and body that reach the client. -/
structure responseWriter where
  status : Nat
  size : Int
  header : List (String × String)
  body : String
  deriving DecidableEq, Repr

/-- Constant `noWritten` of `response_writer.go`. -/
def noWritten : Int := -1

/-- Constant `defaultStatus` of `response_writer.go` (`http.StatusOK`). -/
def defaultStatus : Nat := 200

/-- Method `responseWriter.reset`: a fresh writer for a new request. -/
def responseWriter.reset : responseWriter :=
  { status := defaultStatus, size := noWritten, header := [], body := "" }

/-- Method `responseWriter.Written`. -/
def responseWriter.Written (w : responseWriter) : Bool :=
  w.size != noWritten

/-- Method `responseWriter.WriteHeader`: records the status code unless the
header has already been sent. -/
def responseWriter.WriteHeader (w : responseWriter) (code : Nat) : responseWriter :=
  if code > 0 ∧ w.status ≠ code then
    if w.Written then w else { w with status := code }
  else w

/-- Method `responseWriter.WriteHeaderNow`: sends the header with the recorded
status if it has not been sent yet. -/
def responseWriter.WriteHeaderNow (w : responseWriter) : responseWriter :=
  if w.Written then w else { w with size := 0 }

/-- Method `responseWriter.Write`: sends the header if needed, then appends
the data to the body. -/
def responseWriter.Write (w : responseWriter) (data : String) : responseWriter :=
  let w1 := w.WriteHeaderNow
  { w1 with body := w1.body ++ data, size := w1.size + data.utf8ByteSize }

/-- Lookup `header[key]` in the response header. -/
def headerGet (header : List (String × String)) (key : String) : Option String :=
  (header.find? fun kv => kv.1 = key).map Prod.snd

/-- Function `writeContentType` of gin's `render` package: sets `Content-Type`
only when the header does not carry one yet. -/
def writeContentType (w : responseWriter) (value : String) : responseWriter :=
  match headerGet w.header "Content-Type" with
  | some _ => w
  | none => { w with header := w.header ++ [("Content-Type", value)] }

/-! ## JSON rendering -/

/-- The values stored in a `gin.H` (`map[string]any`), restricted to scalars:
strings, booleans and `nil`. -/
inductive Any where
  | string (s : String)
  | bool (b : Bool)
  | null
  deriving DecidableEq, Repr

/-- Type `gin.H`, a map from string keys to values, as a list of entries. -/
abbrev H := List (String × Any)

/-- One hexadecimal digit, lower case, as `encoding/json` prints it. -/
def hexDigit (n : Nat) : Char :=
  if n < 10 then Char.ofNat (48 + n) else Char.ofNat (87 + n)

/-- Escape of one character inside a JSON string, following `appendString` of
`encoding/json` with HTML escaping on (the setting of `json.Marshal`). -/
def escapeChar (c : Char) : List Char :=
  if c = '"' then ['\\', '"']
  else if c = '\\' then ['\\', '\\']
  else if c = '\n' then ['\\', 'n']
  else if c = '\r' then ['\\', 'r']
  else if c = '\t' then ['\\', 't']
  else if c.toNat = 8 then ['\\', 'b']
  else if c.toNat = 12 then ['\\', 'f']
  else if c.toNat < 32 ∨ c = '<' ∨ c = '>' ∨ c = '&' then
    ['\\', 'u', '0', '0', hexDigit (c.toNat / 16), hexDigit (c.toNat % 16)]
  else if c.toNat = 8232 then ['\\', 'u', '2', '0', '2', '8']
  else if c.toNat = 8233 then ['\\', 'u', '2', '0', '2', '9']
  else [c]

/-- A JSON string literal: the escaped characters between double quotes. -/
def encodeString (s : String) : List Char :=
  '"' :: (s.data.flatMap escapeChar ++ ['"'])

/-- JSON text of a scalar value. -/
def encodeAny : Any → List Char
  | .string s => encodeString s
  | .bool true => "true".data
  | .bool false => "false".data
  | .null => "null".data

/-- JSON text of the entries of an object, separated by commas. -/
def encodeEntries : List (String × Any) → List Char
  | [] => []
  | [kv] => encodeString kv.1 ++ ':' :: encodeAny kv.2
  | kv :: rest => encodeString kv.1 ++ ':' :: encodeAny kv.2 ++ ',' :: encodeEntries rest

/-- Function `json.Marshal` on a `gin.H`: an object whose keys are sorted. -/
def Marshal (obj : H) : String :=
  let sorted := obj.insertionSort fun a b => a.1 ≤ b.1
  String.mk ('\x7b' :: (encodeEntries sorted ++ ['\x7d']))

/-- Variable `jsonContentType` of `render/json.go`. -/
def jsonContentType : String := "application/json; charset=utf-8"

/-- Method `render.JSON.Render`: writes the content type, then the marshalled
data. -/
def renderJSON (w : responseWriter) (obj : H) : responseWriter :=
  (writeContentType w jsonContentType).Write (Marshal obj)

/-- Function `bodyAllowedForStatus` of `context.go`. -/
def bodyAllowedForStatus (status : Nat) : Bool :=
  if 100 ≤ status ∧ status ≤ 199 then false
  else if status = 204 then false
  else if status = 304 then false
  else true

/-! ## Handlers and the request context -/

/-- The handler functions that occur in this program: the two middlewares that
`gin.Default` installs and the anonymous function literal of `main`. -/
inductive HandlerFunc where
  | Logger
  | Recovery
  | func1
  deriving DecidableEq, Repr

/-- The part of `gin.Context` the program touches: the request, the response
writer and the chain of handlers selected by the router. -/
structure Context where
  Request : Request
  writermem : responseWriter
  handlers : List HandlerFunc
  deriving DecidableEq, Repr

/-- Method `Context.Status`. -/
def Context.Status (c : Context) (code : Nat) : Context :=
  { c with writermem := c.writermem.WriteHeader code }

/-- Method `Context.JSON`, through `Context.Render`: sets the status, then
renders the object as JSON when the status allows a body. -/
def Context.JSON (c : Context) (code : Nat) (obj : H) : Context :=
  let c1 := c.Status code
  if bodyAllowedForStatus code then
    { c1 with writermem := renderJSON c1.writermem obj }
  else
    { c1 with writermem := (writeContentType c1.writermem jsonContentType).WriteHeaderNow }

/-- The function literal at `main.go:11`:
`func(c *gin.Context) { c.JSON(200, gin.H{"message": "pong"}) }`. -/
def main_func1 (c : Context) : Context :=
  c.JSON 200 [("message", Any.string "pong")]

/-- Run of a handler chain, as `Context.Next` does from the first handler on.
`Logger` and `Recovery` call `c.Next()` and add nothing to the response when
no handler panics: `Logger` prints an access-log line to standard output after
the rest of the chain has run, and `Recovery` only acts on a panic, which
`main_func1` has no way to raise in this model. -/
def runChain : List HandlerFunc → Context → Context
  | [], c => c
  | .Logger :: rest, c => runChain rest c
  | .Recovery :: rest, c => runChain rest c
  | .func1 :: rest, c => runChain rest (main_func1 c)

/-- Method `Context.Next` on a context whose chain has not started. -/
def Context.Next (c : Context) : Context :=
  runChain c.handlers c

/-! ## The router -/

/-- A node of the routing tree (`tree.go`) that has no children: the shape of
the root after the first route without wildcards has been inserted. An empty
`handlers` list stands for `nil`. -/
structure node where
  path : String
  handlers : List HandlerFunc
  deriving DecidableEq, Repr

/-- Result `nodeValue` of a tree lookup: the handlers found and the
trailing-slash recommendation. -/
structure nodeValue where
  handlers : List HandlerFunc
  tsr : Bool
  deriving DecidableEq, Repr

/-- Method `node.getValue` on a root node without children. The three cases
are those of the Go loop body: the node path is a proper beginning of the
request path, the two are equal, or neither. In Go the first test is
`len(path) > len(pfx) && path[:len(pfx)] == pfx` on bytes; on characters the
conjunction holds for exactly the same pairs of strings. -/
def node.getValue (n : node) (path : String) : nodeValue :=
  let pfx := n.path
  if path.length > pfx.length ∧ path.data.take pfx.length = pfx.data then
    let rest := path.data.drop pfx.length
    { handlers := [], tsr := decide (rest = ['/'] ∧ n.handlers ≠ []) }
  else if path = pfx then
    { handlers := n.handlers, tsr := false }
  else
    { handlers := [],
      tsr := decide (path = "/" ∨
        (pfx.length = path.length + 1 ∧ pfx.data.get? path.length = some '/' ∧
          path.data = pfx.data.take (pfx.length - 1) ∧ n.handlers ≠ [])) }

/-- One entry of `Engine.trees`: the routing tree of one HTTP method. -/
structure methodTree where
  method : String
  root : node
  deriving DecidableEq, Repr

/-- The fields of `gin.Engine` that routing reads. `UseRawPath`,
`RemoveExtraSlash` and `RedirectFixedPath` are false in `gin.New` and `main`
never sets them, so their branches are left out. -/
structure Engine where
  Handlers : List HandlerFunc
  RedirectTrailingSlash : Bool
  HandleMethodNotAllowed : Bool
  trees : List methodTree
  deriving DecidableEq, Repr

/-- Function `gin.New`: no middleware, no routes, trailing-slash redirection
on, method-not-allowed handling off. -/
def New : Engine :=
  { Handlers := [], RedirectTrailingSlash := true, HandleMethodNotAllowed := false,
    trees := [] }

/-- Method `Engine.Use`: appends middleware to the handlers of the root
group. -/
def Engine.Use (e : Engine) (middleware : List HandlerFunc) : Engine :=
  { e with Handlers := e.Handlers ++ middleware }

/-- Function `gin.Default`: `New` with `Logger` and `Recovery` installed. -/
def Default : Engine :=
  New.Use [HandlerFunc.Logger, HandlerFunc.Recovery]

/-- Method `Engine.addRoute`. The three assertions of the Go code are kept
(`none` is the panic). Insertion is modelled for a path without wildcards into
a method that has no tree yet, where `node.addRoute` stores the whole path and
the handlers in the root; any other insertion is outside the model and also
gives `none`. -/
def Engine.addRoute (e : Engine) (method path : String) (handlers : List HandlerFunc) :
    Option Engine :=
  if path.data.head? ≠ some '/' then none
  else if method = "" then none
  else if handlers = [] then none
  else if ':' ∈ path.data ∨ '*' ∈ path.data then none
  else if e.trees.any (fun t => t.method = method) then none
  else some { e with trees := e.trees ++ [{ method := method, root := { path := path, handlers := handlers } }] }

/-- Method `RouterGroup.GET` on the root group of the engine, whose base path
is `/`: the route handlers are the group handlers followed by the given one.
Joining the base path `/` with a relative path such as `/ping` gives the
relative path back. -/
def Engine.GET (e : Engine) (relativePath : String) (handler : HandlerFunc) : Option Engine :=
  e.addRoute "GET" relativePath (e.Handlers ++ [handler])

/-- Which branch of `Engine.handleHTTPRequest` a request takes. -/
inductive Dispatch where
  | route (handlers : List HandlerFunc)
  | redirectTrailingSlash
  | methodNotAllowed (allowed : List String)
  | noRoute
  deriving DecidableEq, Repr

/-- The routing decision of `Engine.handleHTTPRequest`: look the path up in
the tree of the request method; recommend a trailing-slash redirect when the
lookup says so; otherwise fall through to the 405 and 404 handling. -/
def Engine.dispatch (e : Engine) (req : Request) : Dispatch :=
  let fallthrough : Dispatch :=
    if e.HandleMethodNotAllowed then
      let allowed := (e.trees.filter fun t =>
        decide (t.method ≠ req.Method ∧ (t.root.getValue req.URL.Path).handlers ≠ [])).map
          methodTree.method
      if allowed ≠ [] then Dispatch.methodNotAllowed allowed else Dispatch.noRoute
    else Dispatch.noRoute
  match e.trees.find? fun t => t.method = req.Method with
  | none => fallthrough
  | some t =>
    let value := t.root.getValue req.URL.Path
    if value.handlers ≠ [] then Dispatch.route value.handlers
    else if req.Method ≠ "CONNECT" ∧ req.URL.Path ≠ "/" ∧ value.tsr = true ∧
        e.RedirectTrailingSlash = true then
      Dispatch.redirectTrailingSlash
    else fallthrough

/-- Constant `default404Body` of `gin.go`. -/
def default404Body : String := "404 page not found"

/-- Constant `default405Body` of `gin.go`. -/
def default405Body : String := "405 method not allowed"

/-- Function `serveError` of `gin.go`: runs the chain with the error status
preset and writes the default plain-text body when the chain wrote nothing. -/
def serveError (c : Context) (code : Nat) (defaultMessage : String) : responseWriter :=
  let c1 := ({ c with writermem := { c.writermem with status := code } }).Next
  if c1.writermem.Written then c1.writermem
  else if c1.writermem.status = code then
    let w := c1.writermem
    let others := w.header.filter fun (kv : String × String) => kv.1 ≠ "Content-Type"
    ({ w with header := others ++ [("Content-Type", "text/plain")] }).Write defaultMessage
  else c1.writermem.WriteHeaderNow

/-- What the client receives: a response produced through the gin writer, or
the redirect issued by `redirectTrailingSlash`, of which only the status code
is modelled (its `Location` depends on request headers and the query). -/
inductive Served where
  | response (w : responseWriter)
  | redirect (code : Nat)
  deriving DecidableEq, Repr

/-- Status code of what was served. -/
def Served.status : Served → Nat
  | .response w => w.status
  | .redirect code => code

/-- Body of a response written through gin. -/
def Served.body : Served → Option String
  | .response w => some w.body
  | .redirect _ => none

/-- Value of a header of a response written through gin. -/
def Served.headerValue (s : Served) (key : String) : Option String :=
  match s with
  | .response w => headerGet w.header key
  | .redirect _ => none

/-- Method `Engine.handleHTTPRequest`. -/
def Engine.handleHTTPRequest (e : Engine) (c : Context) : Served :=
  match e.dispatch c.Request with
  | .route handlers =>
    Served.response ({ c with handlers := handlers }).Next.writermem.WriteHeaderNow
  | .redirectTrailingSlash =>
    Served.redirect (if c.Request.Method ≠ "GET" then 307 else 301)
  | .methodNotAllowed allowed =>
    let w := { c.writermem with header := c.writermem.header ++ [("Allow", ", ".intercalate allowed)] }
    Served.response (serveError { c with handlers := e.Handlers, writermem := w } 405 default405Body)
  | .noRoute =>
    Served.response (serveError { c with handlers := e.Handlers } 404 default404Body)

/-- Method `Engine.ServeHTTP`: a fresh context for the request, then
`handleHTTPRequest`. -/
def Engine.ServeHTTP (e : Engine) (req : Request) : Served :=
  e.handleHTTPRequest { Request := req, writermem := responseWriter.reset, handlers := [] }

/-! ## Starting the server -/

/-- What the process can observe of its surroundings: the environment, the
command line, and the outcome of `http.ListenAndServe` on an address, which is
`none` when the server binds and serves without returning and `some err` when
the call returns the error `err` (for instance because the port is taken). -/
structure World where
  Getenv : String → String
  Args : List String
  ListenAndServe : String → Option String

/-- Function `resolveAddress` of `utils.go`: with no argument the port comes
from the environment variable `PORT` (default `:8080`), with one argument that
argument is the address, and more arguments are a panic. -/
def resolveAddress (w : World) (addr : List String) : Except String String :=
  match addr with
  | [] => if w.Getenv "PORT" ≠ "" then .ok (":" ++ w.Getenv "PORT") else .ok ":8080"
  | [a] => .ok a
  | _ => .error "too many parameters"

/-- Outcome of a call of `Engine.Run`. -/
inductive RunResult where
  | serving (address : String)
  | returned (address : String) (err : String)
  | panicked (msg : String)
  deriving DecidableEq, Repr

/-- Method `Engine.Run`: resolves the address and calls
`http.ListenAndServe`, whose error it returns. -/
def Engine.Run (_e : Engine) (addr : List String) (w : World) : RunResult :=
  match resolveAddress w addr with
  | .error msg => RunResult.panicked msg
  | .ok address =>
    match w.ListenAndServe address with
    | none => RunResult.serving address
    | some err => RunResult.returned address err

/-- Function `net.SplitHostPort` on addresses without brackets: host and port
are separated by the only colon. -/
def SplitHostPort (hostport : String) : Option (String × String) :=
  match hostport.data.span (fun c => c ≠ ':') with
  | (host, ':' :: port) =>
    if ':' ∈ port ∨ '[' ∈ host ∨ ']' ∈ host then none
    else some (String.mk host, String.mk port)
  | _ => none

/-- The interfaces a TCP listener binds, by the host part of its address. -/
inductive Interfaces where
  | all
  | loopback
  | named (host : String)
  deriving DecidableEq, Repr

/-- Rule of `net.Listen`: an empty host or an unspecified IP address listens
on all interfaces of the machine; `localhost` and the loopback addresses listen
on the loopback interface only. -/
def listenInterfaces (host : String) : Interfaces :=
  if host = "" ∨ host = "0.0.0.0" ∨ host = "::" then Interfaces.all
  else if host = "localhost" ∨ host = "127.0.0.1" ∨ host = "::1" then Interfaces.loopback
  else Interfaces.named host

/-! ## The program -/

/-- The value of `r` in `main` after `r := gin.Default()` and the `r.GET`
call; `none` would be a panic during registration. -/
def router : Option Engine :=
  Default.GET "/ping" HandlerFunc.func1

/-- State of the process started by `main`: serving requests with a router on
an address, or terminated with an exit status after trying the address. -/
inductive Process where
  | serving (r : Engine) (address : String)
  | exited (code : Nat) (address : Option String)
  deriving DecidableEq, Repr

/-- Function `main` of `main.go`. The result of `r.Run(":8080")` is not
assigned: when `Run` returns, `main` returns and the Go runtime ends the
process with status 0. A panic ends it with status 2. -/
def main (w : World) : Process :=
  match router with
  | none => Process.exited 2 none
  | some r =>
    match r.Run [":8080"] w with
    | .serving address => Process.serving r address
    | .returned address _ => Process.exited 0 (some address)
    | .panicked _ => Process.exited 2 none

/-- Exit status of the process, if it has terminated. -/
def Process.exitStatus : Process → Option Nat
  | .serving _ _ => none
  | .exited code _ => some code

/-- Address the process passed to the listener. -/
def Process.address : Process → Option String
  | .serving _ address => some address
  | .exited _ address => address

/-- Response of the server started by `main` to a request. -/
def serve (req : Request) : Option Served :=
  router.map fun r => r.ServeHTTP req

/-! ## Values the program produces, and sample inputs -/

/-- The root of the GET tree after `r.GET("/ping", ...)`: the route path with
the chain of the two default middlewares and the handler. -/
def pingNode : node :=
  { path := "/ping",
    handlers := [HandlerFunc.Logger, HandlerFunc.Recovery, HandlerFunc.func1] }

/-- The engine `main` builds, written out. -/
def pingEngine : Engine :=
  { Handlers := [HandlerFunc.Logger, HandlerFunc.Recovery],
    RedirectTrailingSlash := true, HandleMethodNotAllowed := false,
    trees := [{ method := "GET", root := pingNode }] }

/-- The JSON text of the object with the single key `message` mapped to the
string `pong`. -/
def pongBody : String := "\x7b\"message\":\"pong\"\x7d"

/-- The response the ping handler produces. -/
def pongWriter : responseWriter :=
  { status := 200, size := 18,
    header := [("Content-Type", "application/json; charset=utf-8")],
    body := pongBody }

/-- The response gin produces when no route matches. -/
def notFoundWriter : responseWriter :=
  { status := 404, size := 18, header := [("Content-Type", "text/plain")],
    body := "404 page not found" }

/-- A request `GET /ping?x=1` with a header and a body. -/
def pingRequest : Request :=
  { Method := "GET", URL := { Path := "/ping", RawQuery := "x=1" },
    Header := [("Accept", "text/html")], Body := "ignored" }

/-- A request `GET /ping/`. -/
def pingSlashRequest : Request :=
  { Method := "GET", URL := { Path := "/ping/", RawQuery := "" }, Header := [], Body := "" }

/-- A request `GET /Ping`. -/
def upperPingRequest : Request :=
  { Method := "GET", URL := { Path := "/Ping", RawQuery := "" }, Header := [], Body := "" }

/-- A request `POST /ping`. -/
def postPingRequest : Request :=
  { Method := "POST", URL := { Path := "/ping", RawQuery := "" }, Header := [], Body := "ping" }

/-- A machine on which port 8080 is taken, started with `PORT=9090` in the
environment and `--port 9090` on the command line. -/
def busyWorld : World :=
  { Getenv := fun k => if k = "PORT" then "9090" else "",
    Args := ["--port", "9090"],
    ListenAndServe := fun _ => some "listen tcp :8080: bind: address already in use" }

/-- A machine on which every port is free, with an empty environment and no
arguments. -/
def freeWorld : World :=
  { Getenv := fun _ => "", Args := [], ListenAndServe := fun _ => none }

/-! ## The router of `main`, request by request -/

/-- The route registration in `main` succeeds and gives `pingEngine`. -/
theorem router_eq : router = some pingEngine := by
  decide

/-- Lookup in the tree of `main`: the handlers for `/ping`, a trailing-slash
recommendation for `/ping/` and `/`, nothing otherwise. -/
theorem getValue_ping (path : String) :
    pingNode.getValue path =
      if path = "/ping" then { handlers := pingNode.handlers, tsr := false }
      else { handlers := [], tsr := decide (path = "/ping/" ∨ path = "/") } := by
  obtain ⟨l⟩ := path
  have e1 : ∀ s : String, (String.mk l = s) = (l = s.data) := fun s => by
    rw [String.ext_iff]
  have p5 : "/ping".data = ['/', 'p', 'i', 'n', 'g'] := rfl
  have p6 : "/ping/".data = ['/', 'p', 'i', 'n', 'g', '/'] := rfl
  have p1 : "/".data = ['/'] := rfl
  have pl : "/ping".length = 5 := rfl
  have len5 : ['/', 'p', 'i', 'n', 'g'].length = 5 := rfl
  simp only [node.getValue, pingNode, String.length, e1, p5, p6, p1, pl, len5]
  by_cases h : l = ['/', 'p', 'i', 'n', 'g']
  · subst h
    simp
  · simp only [if_neg h]
    by_cases h1 : l.length > 5 ∧ List.take 5 l = ['/', 'p', 'i', 'n', 'g']
    · rw [if_pos h1]
      have hl : l = ['/', 'p', 'i', 'n', 'g'] ++ l.drop 5 := by
        conv_lhs => rw [← List.take_append_drop 5 l, h1.2]
      have : (List.drop 5 l = ['/']) ↔ (l = ['/', 'p', 'i', 'n', 'g', '/'] ∨ l = ['/']) := by
        constructor
        · intro hd
          left
          rw [hl, hd]
          rfl
        · rintro (h2 | h2)
          · rw [h2]; rfl
          · exfalso
            rw [h2] at h1
            simp at h1
      simp [this]
    · rw [if_neg h1]
      have : (l = ['/'] ∨ 5 = l.length + 1 ∧ ['/', 'p', 'i', 'n', 'g'].get? l.length = some '/' ∧
          l = List.take (5 - 1) ['/', 'p', 'i', 'n', 'g'] ∧
          [HandlerFunc.Logger, HandlerFunc.Recovery, HandlerFunc.func1] ≠ []) ↔
          (l = ['/', 'p', 'i', 'n', 'g', '/'] ∨ l = ['/']) := by
        constructor
        · rintro (h2 | ⟨h2, h3, -⟩)
          · right; exact h2
          · exfalso
            have h4 : l.length = 4 := by omega
            rw [h4] at h3
            simp at h3
        · rintro (h2 | h2)
          · exfalso
            apply h1
            rw [h2]
            simp
          · left; exact h2
      simp only [this]

/-- The branch of `handleHTTPRequest` each request takes in the router of
`main`. -/
theorem dispatch_ping (req : Request) :
    pingEngine.dispatch req =
      if req.Method = "GET" then
        if req.URL.Path = "/ping" then Dispatch.route pingNode.handlers
        else if req.URL.Path = "/ping/" then Dispatch.redirectTrailingSlash
        else Dispatch.noRoute
      else Dispatch.noRoute := by
  by_cases hm : req.Method = "GET"
  · have hc : req.Method ≠ "CONNECT" := by rw [hm]; decide
    by_cases hp : req.URL.Path = "/ping"
    · have hne : pingNode.handlers ≠ [] := by decide
      simp [Engine.dispatch, pingEngine, hm, getValue_ping, hp, hne]
    · by_cases hs : req.URL.Path = "/ping/"
      · simp [Engine.dispatch, pingEngine, hm, getValue_ping, hs]
      · by_cases hr : req.URL.Path = "/"
        · simp [Engine.dispatch, pingEngine, hm, getValue_ping, hr]
        · simp [Engine.dispatch, pingEngine, hm, getValue_ping, hp, hs, hr]
  · have hm2 : ¬ ("GET" = req.Method) := fun h => hm h.symm
    simp [Engine.dispatch, pingEngine, hm, hm2]

/-- The chain of the `/ping` route writes the pong response, whatever the
request. -/
theorem pong_response (req : Request) :
    ({ Request := req, writermem := responseWriter.reset,
       handlers := pingNode.handlers } : Context).Next.writermem.WriteHeaderNow = pongWriter := by
  rfl

/-- With no route, the default middlewares write nothing and gin answers with
its default 404 body. -/
theorem notFound_response (req : Request) :
    serveError { Request := req, writermem := responseWriter.reset,
                 handlers := pingEngine.Handlers } 404 default404Body = notFoundWriter := by
  rfl

/-- The response of the server of `main` to every request. -/
theorem serve_eq (req : Request) :
    serve req = some (
      if req.Method = "GET" then
        if req.URL.Path = "/ping" then Served.response pongWriter
        else if req.URL.Path = "/ping/" then Served.redirect 301
        else Served.response notFoundWriter
      else Served.response notFoundWriter) := by
  simp only [serve, router_eq, Option.map_some', Engine.ServeHTTP, Engine.handleHTTPRequest,
    dispatch_ping]
  by_cases hm : req.Method = "GET"
  · by_cases hp : req.URL.Path = "/ping"
    · simp only [hm, hp, if_true, pong_response]
    · by_cases hs : req.URL.Path = "/ping/"
      · simp [hm, hp, hs]
      · simp only [hm, hp, hs, if_true, if_false, notFound_response]
  · simp only [hm, if_false, notFound_response]

/-! ## Properties of the program -/

/-- C1: every request with method GET and path `/ping` is answered with status
200 and the JSON object that maps `message` to `pong`, and the whole response
is the same for any two such requests, whatever their headers, query strings
and bodies. -/
theorem ping_get_pong (req : Request) (hm : req.Method = "GET")
    (hp : req.URL.Path = "/ping") :
    (serve req).map Served.status = some 200 ∧
    (serve req).bind Served.body = some pongBody ∧
    Marshal [("message", Any.string "pong")] = pongBody ∧
    ∀ req2 : Request, req2.Method = "GET" → req2.URL.Path = "/ping" →
      serve req2 = serve req := by
  have h : serve req = some (Served.response pongWriter) := by
    rw [serve_eq, if_pos hm, if_pos hp]
  refine ⟨by rw [h]; rfl, by rw [h]; rfl, rfl, ?_⟩
  intro req2 hm2 hp2
  rw [h, serve_eq, if_pos hm2, if_pos hp2]

/-- C1, at the request `GET /ping?x=1` with a header and a body. -/
theorem ping_get_pong_witness :
    pingRequest.Method = "GET" ∧ pingRequest.URL.Path = "/ping" ∧
    (serve pingRequest).map Served.status = some 200 ∧
    (serve pingRequest).bind Served.body = some pongBody :=
  ⟨rfl, rfl, (ping_get_pong pingRequest rfl rfl).1, (ping_get_pong pingRequest rfl rfl).2.1⟩

/-- C2, as stated, fails: on a machine where port 8080 is taken, `r.Run`
returns an error and the process ends with exit status 0, not with a non-zero
status. -/
theorem bind_failure_nonzero_exit_counterexample :
    busyWorld.ListenAndServe ":8080" = some "listen tcp :8080: bind: address already in use" ∧
    pingEngine.Run [":8080"] busyWorld =
      RunResult.returned ":8080" "listen tcp :8080: bind: address already in use" ∧
    (main busyWorld).exitStatus = some 0 ∧
    ¬ ∃ code, (main busyWorld).exitStatus = some code ∧ code ≠ 0 := by
  refine ⟨rfl, rfl, rfl, ?_⟩
  rintro ⟨code, h, hne⟩
  have h0 : (main busyWorld).exitStatus = some 0 := rfl
  rw [h0] at h
  exact hne (Option.some.inj h).symm

/-- C2, amended: when binding the listening socket fails, that is, when
`http.ListenAndServe` on `:8080` returns an error, `r.Run` returns it, `main`
drops it and returns, and the process ends at once with exit status 0. -/
theorem bind_failure_exits_zero (w : World) (err : String)
    (h : w.ListenAndServe ":8080" = some err) :
    (∃ r, router = some r ∧ r.Run [":8080"] w = RunResult.returned ":8080" err) ∧
    main w = Process.exited 0 (some ":8080") ∧
    (main w).exitStatus = some 0 := by
  have hr : pingEngine.Run [":8080"] w = RunResult.returned ":8080" err := by
    simp [Engine.Run, resolveAddress, h]
  have hmain : main w = Process.exited 0 (some ":8080") := by
    simp only [main, router_eq, hr]
  exact ⟨⟨pingEngine, router_eq, hr⟩, hmain, by rw [hmain]; rfl⟩

/-- C2 amended, on the machine where port 8080 is taken. -/
theorem bind_failure_exits_zero_witness :
    busyWorld.ListenAndServe ":8080" = some "listen tcp :8080: bind: address already in use" ∧
    main busyWorld = Process.exited 0 (some ":8080") :=
  ⟨rfl, (bind_failure_exits_zero busyWorld _ rfl).2.1⟩

/-- C3, as stated, fails: the path `/ping/` is not `/ping`, yet a GET request to
it is answered with the trailing-slash redirect, status 301, not with 404. -/
theorem near_miss_not_found_counterexample :
    pingSlashRequest.URL.Path ≠ "/ping" ∧
    serve pingSlashRequest = some (Served.redirect 301) ∧
    (serve pingSlashRequest).map Served.status ≠ some 404 := by
  have h : serve pingSlashRequest = some (Served.redirect 301) := by
    rw [serve_eq]; rfl
  refine ⟨by decide, h, ?_⟩
  rw [h]
  decide

/-- C3, amended: every request, of any method, whose path is not exactly
`/ping` is answered with status 404, except a GET request to `/ping/`, which
takes the trailing-slash branch of the router and is answered with its
redirect, status 301. -/
theorem other_path_status (req : Request) (hp : req.URL.Path ≠ "/ping") :
    (serve req).map Served.status =
      some (if req.Method = "GET" ∧ req.URL.Path = "/ping/" then 301 else 404) ∧
    (req.Method = "GET" → req.URL.Path = "/ping/" →
      serve req = some (Served.redirect 301) ∧
      ∃ r, router = some r ∧ r.dispatch req = Dispatch.redirectTrailingSlash) := by
  constructor
  · rw [serve_eq]
    by_cases hm : req.Method = "GET"
    · by_cases hs : req.URL.Path = "/ping/"
      · simp [hm, hs, Served.status]
      · simp [hm, hp, hs, Served.status, notFoundWriter]
    · simp [hm, Served.status, notFoundWriter]
  · intro hm hs
    refine ⟨?_, pingEngine, router_eq, ?_⟩
    · rw [serve_eq, if_pos hm, if_neg hp, if_pos hs]
    · rw [dispatch_ping, if_pos hm, if_neg hp, if_pos hs]

/-- C3 amended, at the near miss `GET /Ping`, which is answered with 404. -/
theorem other_path_status_witness :
    upperPingRequest.URL.Path ≠ "/ping" ∧
    (serve upperPingRequest).map Served.status = some 404 :=
  ⟨by decide, (other_path_status upperPingRequest (by decide)).1⟩

/-- C4: every request to `/ping` whose method is not GET takes the no-route
branch of the router, whose chain holds only the two default middlewares and
not the ping handler, and is answered with status 404; so the status is 404 or
405 and is not 200, and the body is not the pong object. -/
theorem ping_other_method (req : Request) (hp : req.URL.Path = "/ping")
    (hm : req.Method ≠ "GET") :
    ((serve req).map Served.status = some 404 ∨ (serve req).map Served.status = some 405) ∧
    (serve req).map Served.status ≠ some 200 ∧
    (serve req).bind Served.body ≠ some pongBody ∧
    ∃ r, router = some r ∧ r.dispatch req = Dispatch.noRoute ∧
      HandlerFunc.func1 ∉ r.Handlers := by
  have _hpath := hp
  have h : serve req = some (Served.response notFoundWriter) := by
    rw [serve_eq, if_neg hm]
  have hd : pingEngine.dispatch req = Dispatch.noRoute := by
    rw [dispatch_ping, if_neg hm]
  refine ⟨Or.inl (by rw [h]; rfl), by rw [h]; decide, by rw [h]; decide,
    pingEngine, router_eq, hd, by decide⟩

/-- C4, at the request `POST /ping`. -/
theorem ping_other_method_witness :
    postPingRequest.URL.Path = "/ping" ∧ postPingRequest.Method ≠ "GET" ∧
    (serve postPingRequest).map Served.status ≠ some 200 :=
  ⟨rfl, by decide, (ping_other_method postPingRequest rfl (by decide)).2.1⟩

/-- C5, as stated, fails: the `Content-Type` header of the answer to
`GET /ping` has the value `application/json; charset=utf-8`, which is not the
value `application/json`. -/
theorem content_type_value_counterexample :
    pingRequest.Method = "GET" ∧ pingRequest.URL.Path = "/ping" ∧
    (serve pingRequest).bind (fun s => s.headerValue "Content-Type") =
      some "application/json; charset=utf-8" ∧
    (serve pingRequest).bind (fun s => s.headerValue "Content-Type") ≠
      some "application/json" := by
  have h : serve pingRequest = some (Served.response pongWriter) := by
    rw [serve_eq]; rfl
  refine ⟨rfl, rfl, by rw [h]; rfl, ?_⟩
  rw [h]
  decide

/-- C5, amended: for every GET request to `/ping` the response carries the
header `Content-Type` with value `application/json; charset=utf-8` (media type
`application/json` with a charset parameter), and the body is the JSON text of
the object that maps `message` to `pong`. -/
theorem ping_content_type_body (req : Request) (hm : req.Method = "GET")
    (hp : req.URL.Path = "/ping") :
    (serve req).bind (fun s => s.headerValue "Content-Type") =
      some "application/json; charset=utf-8" ∧
    (serve req).bind Served.body = some pongBody ∧
    pongBody.data = ['\x7b', '"', 'm', 'e', 's', 's', 'a', 'g', 'e', '"', ':',
      '"', 'p', 'o', 'n', 'g', '"', '\x7d'] := by
  have h : serve req = some (Served.response pongWriter) := by
    rw [serve_eq, if_pos hm, if_pos hp]
  exact ⟨by rw [h]; rfl, by rw [h]; rfl, rfl⟩

/-- C5 amended, at the request `GET /ping?x=1`. -/
theorem ping_content_type_body_witness :
    pingRequest.Method = "GET" ∧ pingRequest.URL.Path = "/ping" ∧
    (serve pingRequest).bind (fun s => s.headerValue "Content-Type") =
      some "application/json; charset=utf-8" :=
  ⟨rfl, rfl, (ping_content_type_body pingRequest rfl rfl).1⟩

/-- C6: for every environment, every argument list and every outcome of the
bind, the address `main` passes to the listener is `:8080`, whose host part is
empty, which listens on all local interfaces, and whose port is 8080; so the
address is the same in any two runs. -/
theorem listen_address_fixed (w : World) :
    (main w).address = some ":8080" ∧
    SplitHostPort ":8080" = some ("", "8080") ∧
    listenInterfaces "" = Interfaces.all ∧
    ∀ w2 : World, (main w2).address = (main w).address := by
  have key : ∀ v : World, (main v).address = some ":8080" := by
    intro v
    cases hv : v.ListenAndServe ":8080" with
    | none => simp [main, router_eq, Engine.Run, resolveAddress, hv, Process.address]
    | some err => simp [main, router_eq, Engine.Run, resolveAddress, hv, Process.address]
  refine ⟨key w, by decide, by decide, ?_⟩
  intro w2
  rw [key w, key w2]

/-- C9 fails on the code: in every run the host part of the address passed to
`r.Run` is empty and the port is 8080, and an empty host makes the listener
bind all local interfaces, not the loopback host that the comment in `main.go`
names. -/
theorem listen_host_not_loopback (w : World) :
    ∃ host port, (main w).address.bind SplitHostPort = some (host, port) ∧
      host = "" ∧ port = "8080" ∧
      listenInterfaces host = Interfaces.all ∧
      listenInterfaces host ≠ Interfaces.loopback := by
  have key : (main w).address = some ":8080" := by
    cases hv : w.ListenAndServe ":8080" with
    | none => simp [main, router_eq, Engine.Run, resolveAddress, hv, Process.address]
    | some err => simp [main, router_eq, Engine.Run, resolveAddress, hv, Process.address]
  refine ⟨"", "8080", ?_, rfl, rfl, by decide, by decide⟩
  rw [key]
  decide

end Hachiko
